import Mathlib

/-!
Shallow embedding of the risk-assessment and swap-execution core of the
evm-swap-bot repository, together with theorems settling the frozen claims
about it.  The definitions are translated from the JavaScript source:
src/antiscam.js (Token-2022 extension parsing, honeypot simulation, risk
aggregation), src/jupiter.js (swap execution with retry and fee bumping),
src/swap.js (PancakeSwap executeBuy and applySlippage) and src/index.js
(quote-freshness pre-flight gate).  Machine integers are modelled as Nat/Int;
JS BigInt division truncates toward zero and is modelled with Int.tdiv.
-/

set_option maxRecDepth 20000

/-! ### JS string membership

The risk aggregation in src/antiscam.js classifies warnings with
String.prototype.includes.  We embed strings as their character lists and
implement the substring test directly. -/

/-- Does the character list `p` occur at the very start of the second list?
Embeds the positional check underlying JS String.prototype.includes. -/
def startsWithChars : List Char → List Char → Bool
  | [], _ => true
  | _ :: _, [] => false
  | a :: as, b :: bs => a == b && startsWithChars as bs

/-- Does the character list `pat` occur contiguously anywhere in the second
list?  Together with `jsIncludes` this embeds JS String.prototype.includes. -/
def includesChars (pat : List Char) : List Char → Bool
  | [] => startsWithChars pat []
  | c :: cs => startsWithChars pat (c :: cs) || includesChars pat cs

/-- Embedding of the JS expression `s.includes(pat)`. -/
def jsIncludes (s pat : String) : Bool :=
  includesChars pat.toList s.toList

theorem startsWithChars_append (p l m : List Char) (h : startsWithChars p l = true) :
    startsWithChars p (l ++ m) = true := by
  induction p generalizing l with
  | nil => rfl
  | cons a as ih =>
    cases l with
    | nil => simp [startsWithChars] at h
    | cons b bs =>
      simp only [startsWithChars, Bool.and_eq_true, beq_iff_eq] at h
      simp only [List.cons_append, startsWithChars, Bool.and_eq_true, beq_iff_eq]
      exact ⟨h.1, ih bs h.2⟩

theorem includesChars_append_left (p l m : List Char) (h : includesChars p l = true) :
    includesChars p (l ++ m) = true := by
  induction l with
  | nil =>
    cases p with
    | nil =>
      cases m with
      | nil => exact h
      | cons c cs => simp [includesChars, startsWithChars]
    | cons a as => simp [includesChars, startsWithChars] at h
  | cons c cs ih =>
    simp only [includesChars, Bool.or_eq_true] at h
    simp only [List.cons_append, includesChars, Bool.or_eq_true]
    cases h with
    | inl h1 =>
      exact Or.inl (startsWithChars_append p (c :: cs) m h1)
    | inr h2 => exact Or.inr (ih h2)

/-- If the pattern occurs in `s`, it occurs in `s ++ t` as well; this is the
string-level form used to classify warnings whose tail text is arbitrary. -/
theorem jsIncludes_append_left (s t pat : String) (h : jsIncludes s pat = true) :
    jsIncludes (s ++ t) pat = true := by
  unfold jsIncludes at h ⊢
  have hl : (s ++ t).toList = s.toList ++ t.toList := rfl
  rw [hl]
  exact includesChars_append_left _ _ _ h

/-! ### Risk levels and the aggregation of src/antiscam.js lines 238-256 -/

/-- The four aggregate risk levels the bot reports (the source uses the
strings "low", "medium", "high", "critical"). -/
inductive RiskLevel where
  | low
  | medium
  | high
  | critical
deriving DecidableEq

/-- Numeric rank of a risk level, ordered low < medium < high < critical. -/
def RiskLevel.rank : RiskLevel → Nat
  | .low => 0
  | .medium => 1
  | .high => 2
  | .critical => 3

/-- The larger of two risk levels under the severity order. -/
def maxLevel (a b : RiskLevel) : RiskLevel :=
  if a.rank < b.rank then b else a

/-- Embedding of the `hasCritical` membership test of src/antiscam.js line
239: a warning counts as critical when its text contains one of the four
(case-sensitive) markers. -/
def critMatch (w : String) : Bool :=
  jsIncludes w ("HONEYPOT") || jsIncludes w ("EXTREME") ||
    jsIncludes w ("Permanent delegate") || jsIncludes w ("NON-TRANSFERABLE")

/-- Embedding of the `hasHigh` membership test of src/antiscam.js line 246. -/
def highMatch (w : String) : Bool :=
  jsIncludes w ("Freeze authority") || jsIncludes w ("Transfer hook") ||
    jsIncludes w ("High round-trip")

/-- Embedding of the risk-level computation of src/antiscam.js lines 253-256:
critical if some warning matches `critMatch`, else high if some warning
matches `highMatch`, else medium for a nonempty warning list, else low. -/
def computeRiskLevel (warnings : List String) : RiskLevel :=
  if warnings.any critMatch then .critical
  else if warnings.any highMatch then .high
  else if 0 < warnings.length then .medium
  else .low

/-- Severity bucket the aggregator assigns to one warning: the severity tag
of a finding, read off from the same classification the code applies to the
warning text (a finding matching the critical markers is critical, one
matching the high markers is high, any other produced warning is medium). -/
def warningSeverity (w : String) : RiskLevel :=
  if critMatch w then .critical else if highMatch w then .high else .medium

/-! ### Token-2022 TLV extension parsing (src/antiscam.js lines 16-37) -/

/-- One parsed Token-2022 extension: a type id and its raw payload bytes. -/
structure TokenExt where
  type : Nat
  data : List Nat
deriving DecidableEq

/-- Embedding of Buffer.readUInt16LE: the little-endian 16-bit value at the
given offset.  The source only calls it at offsets its guards keep in
bounds; out-of-range reads default to 0 here. -/
def readUInt16LE (d : List Nat) (off : Nat) : Nat :=
  d.getD off 0 + 256 * d.getD (off + 1) 0

/-- The while loop of parseToken2022Extensions: starting at `offset`, read a
4-byte (type, length) header while one fits, stop (returning the entries
collected so far) as soon as a declared length would read past the end of
the buffer. -/
def parseExtGo (data : List Nat) (offset : Nat) : List TokenExt :=
  if h : offset + 4 ≤ data.length then
    let t := readUInt16LE data offset
    let len := readUInt16LE data (offset + 2)
    if offset + 4 + len ≤ data.length then
      ⟨t, (data.drop (offset + 4)).take len⟩ :: parseExtGo data (offset + 4 + len)
    else []
  else []
termination_by data.length - offset
decreasing_by omega

/-- Embedding of parseToken2022Extensions: mint data shorter than 84 bytes or
whose account-type byte (index 82) is not 2 yields no extensions; otherwise
the TLV list starting at byte 83 is parsed. -/
def parseToken2022Extensions (data : List Nat) : List TokenExt :=
  if data.length ≤ 83 then []
  else if data.getD 82 0 ≠ 2 then []
  else parseExtGo data 83

/-! ### Base58 rendering of public keys (used only inside warning text) -/

/-- The Base58 alphabet used by Solana public keys. -/
def base58Alphabet : List Char :=
  ("123456789ABCDEFGHJKLMNPQRSTUVWXYZabcdefghijkmnopqrstuvwxyz").toList

/-- Base58 digits of a natural number, most significant first. -/
def natToBase58 (n : Nat) : List Char :=
  if h : n = 0 then []
  else natToBase58 (n / 58) ++ [base58Alphabet.getD (n % 58) '1']
termination_by n
decreasing_by exact Nat.div_lt_self (Nat.pos_of_ne_zero h) (by norm_num)

/-- Big-endian byte-list value. -/
def bytesToNat (bs : List Nat) : Nat :=
  bs.foldl (fun acc b => acc * 256 + b) 0

/-- Base58 rendering of a byte string, with one leading 1 per leading zero
byte, as PublicKey.toBase58 produces. -/
def toBase58 (bs : List Nat) : String :=
  let zeros := (bs.takeWhile (fun b => b == 0)).length
  String.mk (List.replicate zeros '1' ++ natToBase58 (bytesToNat bs))

/-! ### Individual extension checks (src/antiscam.js lines 51-96) -/

/-- Result of checkTransferFee: the basis-point fee and max fee read from a
TransferFeeConfig extension payload. -/
structure TransferFeeInfo where
  hasTransferFee : Bool
  feeBps : Nat
  maxFee : Nat
deriving DecidableEq

/-- Embedding of extensions.find for a given type id. -/
def findExt (extensions : List TokenExt) (t : Nat) : Option TokenExt :=
  extensions.find? (fun e => e.type == t)

/-- Embedding of Buffer.readBigUInt64LE at an offset. -/
def readUInt64LE (d : List Nat) (off : Nat) : Nat :=
  (List.range 8).foldr (fun i acc => acc * 256 + d.getD (off + i) 0) 0

/-- Embedding of checkTransferFee: requires a type-1 extension of at least
108 bytes; the newer transfer fee bps sits at payload offset 106 and the max
fee at offset 98. -/
def checkTransferFee (extensions : List TokenExt) : Option TransferFeeInfo :=
  match findExt extensions 1 with
  | none => none
  | some ext =>
    if ext.data.length < 108 then none
    else some ⟨0 < readUInt16LE ext.data 106, readUInt16LE ext.data 106,
      readUInt64LE ext.data 98⟩

/-- All-zero 32-byte public key (PublicKey.default). -/
def pubkeyZero : List Nat := List.replicate 32 0

/-- Embedding of checkPermanentDelegate: a type-12 extension of at least 32
bytes whose leading 32 bytes are a non-default key yields the delegate in
Base58. -/
def checkPermanentDelegate (extensions : List TokenExt) : Option String :=
  match findExt extensions 12 with
  | none => none
  | some ext =>
    if ext.data.length < 32 then none
    else if ext.data.take 32 = pubkeyZero then none
    else some (toBase58 (ext.data.take 32))

/-- Embedding of checkNonTransferable: is a type-9 extension present? -/
def checkNonTransferable (extensions : List TokenExt) : Bool :=
  extensions.any (fun e => e.type == 9)

/-- Embedding of checkTransferHook: a type-14 extension of at least 32 bytes
whose leading 32 bytes are a non-default key yields the hook program id. -/
def checkTransferHook (extensions : List TokenExt) : Option String :=
  match findExt extensions 14 with
  | none => none
  | some ext =>
    if ext.data.length < 32 then none
    else if ext.data.take 32 = pubkeyZero then none
    else some (toBase58 (ext.data.take 32))

/-! ### Honeypot simulation (src/antiscam.js lines 102-157)

The network interaction (Jupiter sell quote) is the environment: its outcome
is an input of the embedding.  `Except.error msg` models the catch branch,
`Except.ok none` a response without an outAmount, `Except.ok (some n)` a
response whose outAmount is the number n (n = 0 is falsy in JS and lands in
the no-route branch). -/

/-- Result object of checkHoneypot.  `lossBp100` is the round-trip loss in
hundredths of a percent: the source computes
Number((buyIn - sellOut) * 10000n / buyIn) / 100 with truncating BigInt
division and compares the float against 50 and 20; comparing the exact
integer against 5000 and 2000 is equivalent. -/
structure HoneypotResult where
  canSell : Bool
  reason : Option String
  lossBp100 : Option Int
  warning : Option String
deriving DecidableEq

/-- Decimal rendering of the loss percentage with one fractional digit,
standing in for JS Number.prototype.toFixed(1) (only reached for positive
losses; no classification inspects these digits). -/
def fmtLossPct (bp : Int) : String :=
  let t := (bp.toNat + 5) / 10
  Nat.repr (t / 10) ++ "." ++ Nat.repr (t % 10)

/-- Embedding of checkHoneypot over the sell-quote outcome. -/
def checkHoneypot (amountLamports : Nat) (net : Except String (Option Nat)) :
    HoneypotResult :=
  match net with
  | .error e => ⟨false, some ("Sell simulation failed: " ++ e), none, none⟩
  | .ok none => ⟨false, some ("No sell route found — token may be a honeypot"), none, none⟩
  | .ok (some out) =>
    if out = 0 then
      ⟨false, some ("No sell route found — token may be a honeypot"), none, none⟩
    else
      let loss : Int :=
        if 0 < amountLamports then
          Int.tdiv (((amountLamports : Int) - (out : Int)) * 10000) (amountLamports : Int)
        else 0
      let warning : Option String :=
        if 5000 < loss then
          some (("Extreme round-trip loss: " ++ fmtLossPct loss) ++
            ("% — likely honeypot or extreme tax"))
        else if 2000 < loss then
          some (("High round-trip loss: " ++ fmtLossPct loss) ++
            ("% — possible hidden sell tax"))
        else none
      ⟨true, none, some loss, warning⟩

/-! ### runAntiScamChecks (src/antiscam.js lines 168-268) -/

/-- The token facts runAntiScamChecks reads from validateTokenMint output:
Token-2022 flag with raw mint bytes, the two authority flags, and the supply
rendered as a string (the source compares it with the string "0"). -/
structure TokenInfo where
  isToken2022 : Bool
  rawData : Option (List Nat)
  hasFreezeAuthority : Bool
  hasMintAuthority : Bool
  supply : String
deriving DecidableEq

/-- Rendering of feeBps / 100 with two decimals, standing in for the JS
expression (feeBps / 100).toFixed(2). -/
def fmtFeePct2 (bps : Nat) : String :=
  let frac := bps % 100
  Nat.repr (bps / 100) ++ "." ++
    (if frac < 10 then ("0") ++ Nat.repr frac else Nat.repr frac)

/-- Rendering of feeBps / 100 rounded to an integer, standing in for the JS
expression (feeBps / 100).toFixed(0). -/
def fmtFeePct0 (bps : Nat) : String :=
  Nat.repr ((bps + 50) / 100)

/-- The warnings pushed by the Token-2022 extension section of
runAntiScamChecks (lines 175-209), in push order. -/
def extensionWarnings (info : TokenInfo) : List String :=
  if info.isToken2022 then
    match info.rawData with
    | none => []
    | some raw =>
      let extensions := parseToken2022Extensions raw
      let feeWarnings :=
        match checkTransferFee extensions with
        | some fi =>
          if fi.hasTransferFee then
            (("Transfer fee: " ++ Nat.repr fi.feeBps ++ " bps (" ++ fmtFeePct2 fi.feeBps) ++
              ("%) on every transfer")) ::
              (if 1000 ≤ fi.feeBps then
                [("EXTREME transfer fee (" ++ fmtFeePct0 fi.feeBps) ++ ("%) — likely a scam")]
              else [])
          else []
        | none => []
      let delegateWarnings :=
        match checkPermanentDelegate extensions with
        | some addr =>
          [("Permanent delegate (" ++ addr) ++
            (") — can transfer/burn your tokens at any time")]
        | none => []
      let ntWarnings :=
        if checkNonTransferable extensions then
          [("Token is NON-TRANSFERABLE — you will not be able to sell or transfer it")]
        else []
      let hookWarnings :=
        match checkTransferHook extensions with
        | some pid =>
          [("Transfer hook program (" ++ pid) ++
            (") — custom logic on every transfer, can reject sells")]
        | none => []
      feeWarnings ++ delegateWarnings ++ ntWarnings ++ hookWarnings
  else []

/-- The warnings pushed by the on-chain authority section (lines 212-220). -/
def authorityWarnings (info : TokenInfo) : List String :=
  (if info.hasFreezeAuthority then
    [("Freeze authority active — your tokens can be frozen (blacklist risk)")]
  else []) ++
  (if info.hasMintAuthority then
    [("Mint authority active — unlimited token inflation possible")]
  else []) ++
  (if info.supply = "0" then [("Token has zero supply — suspicious")] else [])

/-- The warnings pushed by the honeypot section for a given checkHoneypot
result (lines 223-236). -/
def honeypotWarnings (hp : HoneypotResult) : List String :=
  if hp.canSell then
    match hp.warning with
    | some w => [w]
    | none => []
  else [("HONEYPOT RISK: ") ++ hp.reason.getD ("")]

/-- The assessment runAntiScamChecks returns: the aggregate level, the
ordered warning list, and the honeypot detail when the simulation ran. -/
structure RiskAssessment where
  riskLevel : RiskLevel
  warnings : List String
  honeypot : Option HoneypotResult
deriving DecidableEq

/-- Embedding of runAntiScamChecks.  The honeypot branch runs only when a
buy quote was supplied; `honeypotNet` is `none` for a null buyQuote and
otherwise carries the outcome of the sell-quote network call. -/
def runAntiScamChecks (amountLamports : Nat) (info : TokenInfo)
    (honeypotNet : Option (Except String (Option Nat))) : RiskAssessment :=
  let base := extensionWarnings info ++ authorityWarnings info
  match honeypotNet with
  | none => ⟨computeRiskLevel base, base, none⟩
  | some net =>
    let hp := checkHoneypot amountLamports net
    let warnings := base ++ honeypotWarnings hp
    ⟨computeRiskLevel warnings, warnings, some hp⟩

/-! ### Transaction error parsing (src/jupiter.js lines 12-47) -/

/-- A Solana transaction error object as the confirmation can deliver it:
either a bare string variant, an InstructionError pair whose detail is a
Custom code, a string, or some other JSON detail, or any other object
(rendered via JSON.stringify, carried here as its rendered text). -/
inductive TxErr where
  | str (s : String)
  | instructionCustom (idx : Nat) (code : Nat)
  | instructionMsg (idx : Nat) (detail : String)
  | instructionJson (idx : Nat) (json : String)
  | otherJson (json : String)
deriving DecidableEq

/-- The PROGRAM_ERRORS table of src/jupiter.js lines 12-20. -/
def programErrorMessage (code : Nat) : Option String :=
  if code = 0 then some ("Not enough lamports")
  else if code = 1 then some ("Insufficient funds")
  else if code = 6000 then some ("Slippage tolerance exceeded")
  else if code = 6001 then some ("Slippage tolerance exceeded")
  else if code = 6002 then some ("Invalid route / zero output")
  else if code = 6003 then some ("Exceeds desired slippage limit")
  else none

/-- Embedding of parseTransactionError. -/
def parseTransactionError (err : Option TxErr) : String :=
  match err with
  | none => "unknown error"
  | some (.str s) => s
  | some (.instructionCustom idx code) =>
    let readable := (programErrorMessage code).getD (("program error code ") ++ Nat.repr code)
    (("Instruction #" ++ Nat.repr idx ++ ": " ++ readable) ++
      (" (Custom: " ++ Nat.repr code ++ ")"))
  | some (.instructionMsg idx d) => ("Instruction #" ++ Nat.repr idx ++ ": ") ++ d
  | some (.instructionJson idx j) => ("Instruction #" ++ Nat.repr idx ++ ": ") ++ j
  | some (.otherJson j) => j

/-! ### Swap execution with retries (src/jupiter.js lines 125-268)

One call of sendSwapTransaction builds, signs, submits and confirms a
transaction; everything the environment decides (Jupiter response, RPC,
confirmation) is summarised per attempt as an AttemptOutcome.  Each attempt
performs exactly one submission, so the number of attempts made equals the
number of submissions. -/

/-- What one sendSwapTransaction call ran into: a confirmed transaction, a
confirmation carrying a non-null on-chain error for the submitted
transaction id, or any other thrown error (timeout, build failure,
submission failure) with its message. -/
inductive AttemptOutcome where
  | confirmed (txId : String)
  | onChainFail (txId : String) (err : TxErr)
  | thrown (msg : String)
deriving DecidableEq

/-- The error object executeSwap catches: its message plus the txId and raw
on-chain error attached at src/jupiter.js lines 221-224 (absent for other
throws). -/
structure SwapError where
  msg : String
  txId : Option String
  onChainError : Option TxErr
deriving DecidableEq

/-- Embedding of one sendSwapTransaction call: a non-null confirmation error
is wrapped in an error whose message is the parsed on-chain error and which
carries the transaction id and the raw error object. -/
def sendSwapTransaction : AttemptOutcome → Except SwapError String
  | .confirmed t => .ok t
  | .onChainFail t e =>
    .error ⟨("Transaction failed on-chain: ") ++ parseTransactionError (some e), some t, some e⟩
  | .thrown m => .error ⟨m, none, none⟩

/-- The retryable-failure classification of src/jupiter.js lines 249-252:
a caught message counts as retryable when it contains one of the three
markers. -/
def isRetryableMsg (m : String) : Bool :=
  jsIncludes m ("timed out") || jsIncludes m ("BlockhashNotFound") ||
    jsIncludes m ("block height exceeded")

/-- Did this attempt fail with a retryable error (so the loop would go on)? -/
def retryableFailure (x : AttemptOutcome) : Bool :=
  match sendSwapTransaction x with
  | .ok _ => false
  | .error e => isRetryableMsg e.msg

/-- The priority-fee setting passed to sendSwapTransaction: the auto
sentinel or a number (parseInt of config.priorityFee). -/
inductive Fee where
  | auto
  | num (n : Int)
deriving DecidableEq

/-- SWAP_MAX_RETRIES of src/jupiter.js line 7. -/
def SWAP_MAX_RETRIES : Nat := 2

/-- DEFAULT_RETRY_FEE_LAMPORTS of src/jupiter.js line 9. -/
def DEFAULT_RETRY_FEE_LAMPORTS : Nat := 100000

/-- The JS expression networkFeeEstimate || DEFAULT_RETRY_FEE_LAMPORTS: a
missing or zero (falsy) estimate falls back to the default floor. -/
def feeEstimateOrDefault (est : Option Nat) : Nat :=
  match est with
  | some n => if n = 0 then DEFAULT_RETRY_FEE_LAMPORTS else n
  | none => DEFAULT_RETRY_FEE_LAMPORTS

/-- The fee bump of src/jupiter.js lines 257-262: an auto or non-positive
current fee is replaced by the network estimate or the default floor, a
positive numeric fee becomes Math.ceil(fee * 1.5), i.e. the ceiling of
3 * fee / 2. -/
def bumpFee (est : Option Nat) : Fee → Fee
  | .auto => .num (feeEstimateOrDefault est)
  | .num n => if 0 < n then .num ((3 * n + 1) / 2) else .num (feeEstimateOrDefault est)

/-- Iterated fee bump: the fee the k-th attempt (0-based) uses when every
earlier attempt failed retryably. -/
def bumpIterFee (est : Option Nat) (F : Fee) : Nat → Fee
  | 0 => F
  | k + 1 => bumpFee est (bumpIterFee est F k)

deriving instance DecidableEq for Except

/-- Outcome of a whole executeSwap session: the value returned or error
thrown, plus the fee passed to sendSwapTransaction on each attempt made (so
fees.length is the number of attempts, i.e. of submissions). -/
structure SwapRun where
  result : Except SwapError String
  fees : List Fee
deriving DecidableEq

/-- The retry loop of executeSwap (src/jupiter.js lines 245-267), with
`remaining = SWAP_MAX_RETRIES - attempt` retries left: stop on success, on a
non-retryable error, or when retries are exhausted; otherwise bump the fee
and try again. -/
def executeSwapGo (outcomes : Nat → AttemptOutcome) (est : Option Nat) (fee : Fee)
    (attempt : Nat) : Nat → SwapRun
  | 0 =>
    match sendSwapTransaction (outcomes attempt) with
    | .ok t => ⟨.ok t, [fee]⟩
    | .error e => ⟨.error e, [fee]⟩
  | r + 1 =>
    match sendSwapTransaction (outcomes attempt) with
    | .ok t => ⟨.ok t, [fee]⟩
    | .error e =>
      if isRetryableMsg e.msg then
        let rest := executeSwapGo outcomes est (bumpFee est fee) (attempt + 1) r
        ⟨rest.result, fee :: rest.fees⟩
      else ⟨.error e, [fee]⟩

/-- Embedding of executeSwap: run the attempt loop from attempt 0 with
SWAP_MAX_RETRIES retries available, starting from the configured fee. -/
def executeSwap (outcomes : Nat → AttemptOutcome) (est : Option Nat)
    (initialFee : Fee) : SwapRun :=
  executeSwapGo outcomes est initialFee 0 SWAP_MAX_RETRIES

/-! ### PancakeSwap executeBuy (src/swap.js lines 39-110) -/

/-- What one executeBuy attempt ran into: a confirmed swap, a receipt with
status 0 (the thrown error then carries the transaction hash), or any other
error (no txHash attached). -/
inductive BuyOutcome where
  | confirmedTx (hash : String)
  | reverted (hash : String)
  | failed (msg : String)
deriving DecidableEq

/-- The error executeBuy catches: message plus the txHash set only for an
on-chain revert. -/
structure BuyError where
  msg : String
  txHash : Option String
deriving DecidableEq

/-- Result of the body of one executeBuy attempt. -/
def buyAttemptResult : BuyOutcome → Except BuyError String
  | .confirmedTx h => .ok h
  | .reverted h => .error ⟨("Transaction reverted on-chain"), some h⟩
  | .failed m => .error ⟨m, none⟩

/-- Did this executeBuy attempt fail without a txHash (so the loop would
retry it)? -/
def retryableBuyFailure (x : BuyOutcome) : Bool :=
  match buyAttemptResult x with
  | .ok _ => false
  | .error e => e.txHash.isNone

/-- The attempt loop of executeBuy (src/swap.js lines 57-109): an error
carrying a txHash (on-chain revert) or the last attempt rethrows; any other
error is retried.  Returns the result and the number of attempts made. -/
def executeBuyGo (outcomes : Nat → BuyOutcome) (attempt : Nat) :
    Nat → Except BuyError String × Nat
  | 0 =>
    match buyAttemptResult (outcomes attempt) with
    | .ok h => (.ok h, 1)
    | .error e => (.error e, 1)
  | r + 1 =>
    match buyAttemptResult (outcomes attempt) with
    | .ok h => (.ok h, 1)
    | .error e =>
      if e.txHash.isSome then (.error e, 1)
      else
        let rest := executeBuyGo outcomes (attempt + 1) r
        (rest.1, rest.2 + 1)

/-- Embedding of executeBuy: maxAttempts = buyRetries + 1 (config.buyRetries
|| 0 defaults to 0), so buyRetries retries are available after the first
attempt. -/
def executeBuy (outcomes : Nat → BuyOutcome) (buyRetries : Nat) :
    Except BuyError String × Nat :=
  executeBuyGo outcomes 0 buyRetries

/-! ### applySlippage (src/swap.js lines 25-28) -/

/-- Embedding of Math.round: round half toward positive infinity. -/
def jsMathRound (q : ℚ) : ℤ :=
  ⌊q + 1 / 2⌋

/-- Embedding of applySlippage: the slippage percentage is converted to
basis points with Math.round (10000-based precision for fractional
percents), then the floor is computed with truncating BigInt division. -/
def applySlippage (expectedOut : ℤ) (slippagePercent : ℚ) : ℤ :=
  let bps : ℤ := jsMathRound (slippagePercent * 100)
  Int.tdiv (expectedOut * (10000 - bps)) 10000

/-! ### Quote-freshness pre-flight gate (src/index.js lines 29-33, 348-380) -/

/-- QUOTE_MAX_AGE_MS of src/index.js line 30. -/
def QUOTE_MAX_AGE_MS : Nat := 10000

/-- The deviation between the old and fresh quote in hundredths of a
percent: Number((newOut - oldOut) * 10000n / oldOut) / 100 with truncating
BigInt division; the source compares the float against -10 and (in absolute
value) 2, equivalent to comparing this integer against -1000 and 200. -/
def deviationBp100 (oldOut newOut : Nat) : Int :=
  if 0 < oldOut then Int.tdiv (((newOut : Int) - (oldOut : Int)) * 10000) (oldOut : Int)
  else 0

/-- What the freshness gate decided: whether the run aborts (process.exit
with PRICE_DEVIATION before executeSwap is ever called), which expected
output the surviving quote carries, whether a re-quote was attempted, and
whether the price-move warning was logged. -/
structure GateResult where
  aborted : Bool
  usedOut : Nat
  requoted : Bool
  warned : Bool
deriving DecidableEq

/-- Embedding of the quote-freshness block of main (src/index.js lines
348-380): a quote older than QUOTE_MAX_AGE_MS is re-quoted; a failed
re-quote is swallowed and the stale quote is kept; otherwise a deviation
below -10% without the --yes override aborts, and any deviation beyond 2%
in absolute value is logged. -/
def quoteFreshnessGate (quoteAgeMs : Nat) (oldOut : Nat)
    (refresh : Except String Nat) (skipConfirm : Bool) : GateResult :=
  if QUOTE_MAX_AGE_MS < quoteAgeMs then
    match refresh with
    | .error _ => ⟨false, oldOut, true, false⟩
    | .ok newOut =>
      let dev := deviationBp100 oldOut newOut
      let warned := decide (200 < dev.natAbs)
      if dev < -1000 ∧ skipConfirm = false then ⟨true, oldOut, true, warned⟩
      else ⟨false, newOut, true, warned⟩
  else ⟨false, oldOut, false, false⟩

/-! ### Helper lemmas: risk-level aggregation -/

theorem computeRiskLevel_critical_iff (ws : List String) :
    computeRiskLevel ws = RiskLevel.critical ↔ ws.any critMatch = true := by
  unfold computeRiskLevel
  split_ifs with h1 h2 h3 <;> simp_all

theorem computeRiskLevel_high_iff (ws : List String) :
    computeRiskLevel ws = RiskLevel.high ↔
      (ws.any critMatch = false ∧ ws.any highMatch = true) := by
  unfold computeRiskLevel
  split_ifs with h1 h2 h3 <;> simp_all

theorem computeRiskLevel_medium_iff (ws : List String) :
    computeRiskLevel ws = RiskLevel.medium ↔
      (ws.any critMatch = false ∧ ws.any highMatch = false ∧ 0 < ws.length) := by
  unfold computeRiskLevel
  split_ifs with h1 h2 h3 <;> simp_all

theorem computeRiskLevel_low_iff (ws : List String) :
    computeRiskLevel ws = RiskLevel.low ↔ ws = [] := by
  unfold computeRiskLevel
  split_ifs with h1 h2 h3 <;>
    first
    | (simp only [reduceCtorEq, false_iff]; intro he; subst he; simp_all)
    | (simp only [true_iff]
       cases ws with
       | nil => rfl
       | cons a l => simp at h3)

theorem computeRiskLevel_eq_fold (ws : List String) :
    computeRiskLevel ws =
      ws.foldr (fun w acc => maxLevel (warningSeverity w) acc) RiskLevel.low := by
  induction ws with
  | nil => rfl
  | cons w ws ih =>
    rw [List.foldr_cons, ← ih]
    by_cases hc : critMatch w
    · have hl : computeRiskLevel (w :: ws) = RiskLevel.critical := by
        unfold computeRiskLevel
        simp [List.any_cons, hc]
      rw [hl]
      unfold warningSeverity
      rw [if_pos hc]
      cases hx : computeRiskLevel ws <;> rfl
    · by_cases hh : highMatch w
      · have hl : computeRiskLevel (w :: ws) =
            (if ws.any critMatch then RiskLevel.critical else RiskLevel.high) := by
          unfold computeRiskLevel
          simp [List.any_cons, hc, hh]
        rw [hl]
        unfold warningSeverity
        rw [if_neg hc, if_pos hh]
        cases hx : computeRiskLevel ws with
        | critical =>
          rw [if_pos ((computeRiskLevel_critical_iff ws).mp hx)]
          rfl
        | high =>
          rw [if_neg (by simp [((computeRiskLevel_high_iff ws).mp hx).1])]
          rfl
        | medium =>
          rw [if_neg (by simp [((computeRiskLevel_medium_iff ws).mp hx).1])]
          rfl
        | low =>
          have he := (computeRiskLevel_low_iff ws).mp hx
          subst he
          rfl
      · have hl : computeRiskLevel (w :: ws) =
            (if ws.any critMatch then RiskLevel.critical
             else if ws.any highMatch then RiskLevel.high else RiskLevel.medium) := by
          unfold computeRiskLevel
          simp [List.any_cons, hc, hh]
        rw [hl]
        unfold warningSeverity
        rw [if_neg hc, if_neg hh]
        cases hx : computeRiskLevel ws with
        | critical =>
          rw [if_pos ((computeRiskLevel_critical_iff ws).mp hx)]
          rfl
        | high =>
          have hp := (computeRiskLevel_high_iff ws).mp hx
          rw [if_neg (by simp [hp.1]), if_pos hp.2]
          rfl
        | medium =>
          have hp := (computeRiskLevel_medium_iff ws).mp hx
          rw [if_neg (by simp [hp.1]), if_neg (by simp [hp.2.1])]
          rfl
        | low =>
          have he := (computeRiskLevel_low_iff ws).mp hx
          subst he
          rfl

/-! ### Helper lemmas: the executeSwap retry loop -/

theorem swapGo_len_le (r : Nat) :
    ∀ (o : Nat → AttemptOutcome) (est : Option Nat) (f : Fee) (a : Nat),
      (executeSwapGo o est f a r).fees.length ≤ r + 1 := by
  induction r with
  | zero =>
    intro o est f a
    unfold executeSwapGo
    cases sendSwapTransaction (o a) <;> simp
  | succ r ih =>
    intro o est f a
    unfold executeSwapGo
    cases hs : sendSwapTransaction (o a) with
    | ok t => simp
    | error e =>
      by_cases hr : isRetryableMsg e.msg
      · simp only [hr, if_true, List.length_cons]
        have := ih o est (bumpFee est f) (a + 1)
        omega
      · simp [hr]

theorem swapGo_nonfinal_retryable (r : Nat) :
    ∀ (o : Nat → AttemptOutcome) (est : Option Nat) (f : Fee) (a k : Nat),
      k + 1 < (executeSwapGo o est f a r).fees.length →
      retryableFailure (o (a + k)) = true := by
  induction r with
  | zero =>
    intro o est f a k hk
    unfold executeSwapGo at hk
    cases hs : sendSwapTransaction (o a) <;> simp [hs] at hk
  | succ r ih =>
    intro o est f a k hk
    unfold executeSwapGo at hk
    cases hs : sendSwapTransaction (o a) with
    | ok t => simp [hs] at hk
    | error e =>
      by_cases hr : isRetryableMsg e.msg
      · simp only [hs, hr, if_true, List.length_cons] at hk
        cases k with
        | zero =>
          simp only [Nat.add_zero]
          unfold retryableFailure
          rw [hs]
          exact hr
        | succ k =>
          have := ih o est (bumpFee est f) (a + 1) k (by omega)
          have hi : a + 1 + k = a + (k + 1) := by omega
          rwa [hi] at this
      · simp [hs, hr] at hk

theorem swapGo_all_retryable (r : Nat) :
    ∀ (o : Nat → AttemptOutcome) (est : Option Nat) (f : Fee) (a : Nat),
      (∀ k, k ≤ r → retryableFailure (o (a + k)) = true) →
      (executeSwapGo o est f a r).fees.length = r + 1 ∧
        (executeSwapGo o est f a r).result = sendSwapTransaction (o (a + r)) := by
  induction r with
  | zero =>
    intro o est f a hall
    have h0 := hall 0 (Nat.le_refl 0)
    rw [Nat.add_zero] at h0
    unfold retryableFailure at h0
    unfold executeSwapGo
    cases hs : sendSwapTransaction (o a) with
    | ok t => rw [hs] at h0; simp at h0
    | error e =>
      rw [hs] at h0
      simp only [Nat.add_zero]
      exact ⟨rfl, hs.symm⟩
  | succ r ih =>
    intro o est f a hall
    have h0 := hall 0 (Nat.zero_le _)
    rw [Nat.add_zero] at h0
    unfold retryableFailure at h0
    unfold executeSwapGo
    cases hs : sendSwapTransaction (o a) with
    | ok t => rw [hs] at h0; simp at h0
    | error e =>
      rw [hs] at h0
      have hall2 : ∀ k, k ≤ r → retryableFailure (o (a + 1 + k)) = true := by
        intro k hk
        have := hall (k + 1) (by omega)
        have hi : a + (k + 1) = a + 1 + k := by omega
        rwa [hi] at this
      have hrec := ih o est (bumpFee est f) (a + 1) hall2
      have hlen := hrec.1
      have h0e : isRetryableMsg e.msg = true := h0
      refine ⟨?_, ?_⟩
      · show (if isRetryableMsg e.msg = true then
            SwapRun.mk (executeSwapGo o est (bumpFee est f) (a + 1) r).result
              (f :: (executeSwapGo o est (bumpFee est f) (a + 1) r).fees)
          else SwapRun.mk (Except.error e) [f]).fees.length = r + 1 + 1
        rw [if_pos h0e]
        simp only [List.length_cons]
        omega
      · show (if isRetryableMsg e.msg = true then
            SwapRun.mk (executeSwapGo o est (bumpFee est f) (a + 1) r).result
              (f :: (executeSwapGo o est (bumpFee est f) (a + 1) r).fees)
          else SwapRun.mk (Except.error e) [f]).result =
            sendSwapTransaction (o (a + (r + 1)))
        rw [if_pos h0e]
        have hi : a + 1 + r = a + (r + 1) := by omega
        rw [← hi]
        exact hrec.2

theorem bumpIterFee_shift (est : Option Nat) (f : Fee) (k : Nat) :
    bumpIterFee est (bumpFee est f) k = bumpIterFee est f (k + 1) := by
  induction k with
  | zero => rfl
  | succ k ih =>
    unfold bumpIterFee
    rw [ih]

theorem swapGo_fees_get (r : Nat) :
    ∀ (o : Nat → AttemptOutcome) (est : Option Nat) (f : Fee) (a k : Nat),
      k < (executeSwapGo o est f a r).fees.length →
      (executeSwapGo o est f a r).fees.getD k Fee.auto = bumpIterFee est f k := by
  induction r with
  | zero =>
    intro o est f a k hk
    unfold executeSwapGo at hk ⊢
    cases hs : sendSwapTransaction (o a) <;>
      simp [hs] at hk ⊢ <;>
      · subst hk
        rfl
  | succ r ih =>
    intro o est f a k hk
    unfold executeSwapGo at hk ⊢
    cases hs : sendSwapTransaction (o a) with
    | ok t =>
      simp [hs] at hk ⊢
      subst hk
      rfl
    | error e =>
      by_cases hr : isRetryableMsg e.msg
      · simp only [hs, hr, if_true, List.length_cons] at hk ⊢
        cases k with
        | zero => rfl
        | succ k =>
          simp only [List.getD_cons_succ]
          rw [ih o est (bumpFee est f) (a + 1) k (by omega)]
          exact bumpIterFee_shift est f k
      · simp [hs, hr] at hk ⊢
        subst hk
        rfl

/-! ### Helper lemmas: the executeBuy retry loop -/

theorem buyGo_count_le (r : Nat) :
    ∀ (o : Nat → BuyOutcome) (a : Nat), (executeBuyGo o a r).2 ≤ r + 1 := by
  induction r with
  | zero =>
    intro o a
    unfold executeBuyGo
    cases buyAttemptResult (o a) <;> simp
  | succ r ih =>
    intro o a
    unfold executeBuyGo
    cases hs : buyAttemptResult (o a) with
    | ok t => simp
    | error e =>
      by_cases hr : e.txHash.isSome
      · simp [hr]
      · simp only [hr, Bool.false_eq_true, if_false]
        have := ih o (a + 1)
        omega

theorem buyGo_nonfinal_retryable (r : Nat) :
    ∀ (o : Nat → BuyOutcome) (a k : Nat),
      k + 1 < (executeBuyGo o a r).2 → retryableBuyFailure (o (a + k)) = true := by
  induction r with
  | zero =>
    intro o a k hk
    unfold executeBuyGo at hk
    cases hs : buyAttemptResult (o a) <;> simp [hs] at hk
  | succ r ih =>
    intro o a k hk
    unfold executeBuyGo at hk
    cases hs : buyAttemptResult (o a) with
    | ok t => simp [hs] at hk
    | error e =>
      by_cases hr : e.txHash.isSome
      · simp [hs, hr] at hk
      · simp only [hs, hr, Bool.false_eq_true, if_false] at hk
        cases k with
        | zero =>
          simp only [Nat.add_zero]
          unfold retryableBuyFailure
          rw [hs]
          simp [Option.isNone_iff_eq_none]
          cases ht : e.txHash with
          | none => rfl
          | some v => rw [ht] at hr; simp at hr
        | succ k =>
          have := ih o (a + 1) k (by omega)
          have hi : a + 1 + k = a + (k + 1) := by omega
          rwa [hi] at this

theorem buyGo_all_retryable (r : Nat) :
    ∀ (o : Nat → BuyOutcome) (a : Nat),
      (∀ k, k ≤ r → retryableBuyFailure (o (a + k)) = true) →
      (executeBuyGo o a r).2 = r + 1 ∧
        (executeBuyGo o a r).1 = buyAttemptResult (o (a + r)) := by
  induction r with
  | zero =>
    intro o a hall
    have h0 := hall 0 (Nat.le_refl 0)
    rw [Nat.add_zero] at h0
    unfold retryableBuyFailure at h0
    unfold executeBuyGo
    cases hs : buyAttemptResult (o a) with
    | ok t => rw [hs] at h0; simp at h0
    | error e =>
      exact ⟨rfl, hs.symm⟩
  | succ r ih =>
    intro o a hall
    have h0 := hall 0 (Nat.zero_le _)
    rw [Nat.add_zero] at h0
    unfold retryableBuyFailure at h0
    unfold executeBuyGo
    cases hs : buyAttemptResult (o a) with
    | ok t => rw [hs] at h0; simp at h0
    | error e =>
      rw [hs] at h0
      have h0e : e.txHash.isNone = true := h0
      have hne : e.txHash.isSome ≠ true := by
        cases ht : e.txHash with
        | none => simp
        | some v => rw [ht] at h0e; simp at h0e
      have hall2 : ∀ k, k ≤ r → retryableBuyFailure (o (a + 1 + k)) = true := by
        intro k hk
        have := hall (k + 1) (by omega)
        have hi : a + (k + 1) = a + 1 + k := by omega
        rwa [hi] at this
      have hrec := ih o (a + 1) hall2
      refine ⟨?_, ?_⟩
      · show (if e.txHash.isSome = true then ((Except.error e : Except BuyError String), 1)
          else ((executeBuyGo o (a + 1) r).1, (executeBuyGo o (a + 1) r).2 + 1)).2 = r + 1 + 1
        rw [if_neg hne]
        have := hrec.1
        omega
      · show (if e.txHash.isSome = true then ((Except.error e : Except BuyError String), 1)
          else ((executeBuyGo o (a + 1) r).1, (executeBuyGo o (a + 1) r).2 + 1)).1 =
            buyAttemptResult (o (a + (r + 1)))
        rw [if_neg hne]
        have hi : a + 1 + r = a + (r + 1) := by omega
        rw [← hi]
        exact hrec.2

/-! ### Helper definitions and lemmas: fee iteration -/

def iterCeil15 (n : Int) : Nat → Int
  | 0 => n
  | k + 1 => (3 * iterCeil15 n k + 1) / 2

theorem iterCeil15_pos (n : Int) (hn : 0 < n) (k : Nat) : 0 < iterCeil15 n k := by
  induction k with
  | zero => exact hn
  | succ k ih =>
    unfold iterCeil15
    omega

theorem bumpIterFee_num (est : Option Nat) (n : Int) (hn : 0 < n) (k : Nat) :
    bumpIterFee est (Fee.num n) k = Fee.num (iterCeil15 n k) := by
  induction k with
  | zero => rfl
  | succ k ih =>
    unfold bumpIterFee
    rw [ih]
    show (if 0 < iterCeil15 n k then Fee.num ((3 * iterCeil15 n k + 1) / 2)
      else Fee.num (feeEstimateOrDefault est)) = Fee.num (iterCeil15 n (k + 1))
    rw [if_pos (iterCeil15_pos n hn k)]
    rfl

/-! ### Helper definitions and lemmas: serialized TLV buffers -/

def encodeU16 (n : Nat) : List Nat := [n % 256, n / 256]

def serializeExts : List (Nat × List Nat) → List Nat
  | [] => []
  | (t, p) :: es => encodeU16 t ++ (encodeU16 p.length ++ (p ++ serializeExts es))

theorem readU16_cons (x : Nat) (l : List Nat) (m : Nat) :
    readUInt16LE (x :: l) (m + 1) = readUInt16LE l m := by
  simp [readUInt16LE, List.getD_cons_succ]

theorem readU16_here (pre : List Nat) (a b : Nat) (rest : List Nat) :
    readUInt16LE (pre ++ a :: b :: rest) pre.length = a + 256 * b := by
  induction pre with
  | nil => rfl
  | cons x xs ih =>
    rw [List.cons_append, List.length_cons, readU16_cons]
    exact ih

theorem parseExtGo_step (pre p rest : List Nat) (t : Nat) (ht : t < 65536)
    (hp : p.length < 65536) :
    parseExtGo (pre ++ (encodeU16 t ++ (encodeU16 p.length ++ (p ++ rest)))) pre.length
      = TokenExt.mk t p ::
        parseExtGo (pre ++ (encodeU16 t ++ (encodeU16 p.length ++ (p ++ rest))))
          (pre.length + 4 + p.length) := by
  have h1 : pre ++ (encodeU16 t ++ (encodeU16 p.length ++ (p ++ rest)))
      = pre ++ (t % 256) :: (t / 256) :: (p.length % 256) :: (p.length / 256) :: (p ++ rest) := by
    simp [encodeU16]
  have hlen : (pre ++ (encodeU16 t ++ (encodeU16 p.length ++ (p ++ rest)))).length
      = pre.length + 4 + p.length + rest.length := by
    simp [encodeU16]
    omega
  have hr1 : readUInt16LE (pre ++ (encodeU16 t ++ (encodeU16 p.length ++ (p ++ rest))))
      pre.length = t := by
    rw [h1, readU16_here]
    exact Nat.mod_add_div t 256
  have hr2 : readUInt16LE (pre ++ (encodeU16 t ++ (encodeU16 p.length ++ (p ++ rest))))
      (pre.length + 2) = p.length := by
    have h2 : pre ++ (encodeU16 t ++ (encodeU16 p.length ++ (p ++ rest)))
        = (pre ++ [t % 256, t / 256]) ++
            (p.length % 256) :: (p.length / 256) :: (p ++ rest) := by
      simp [encodeU16]
    have hl2 : pre.length + 2 = (pre ++ [t % 256, t / 256]).length := by simp
    rw [h2, hl2, readU16_here]
    exact Nat.mod_add_div p.length 256
  have hr3 : ((pre ++ (encodeU16 t ++ (encodeU16 p.length ++ (p ++ rest)))).drop
      (pre.length + 4)).take p.length = p := by
    have h3 : pre ++ (encodeU16 t ++ (encodeU16 p.length ++ (p ++ rest)))
        = (pre ++ encodeU16 t ++ encodeU16 p.length) ++ (p ++ rest) := by
      simp [encodeU16]
    have hl3 : pre.length + 4 = (pre ++ encodeU16 t ++ encodeU16 p.length).length := by
      simp [encodeU16]
      try omega
    rw [h3, hl3, List.drop_left, List.take_left]
  conv_lhs => rw [parseExtGo]
  rw [dif_pos (by omega)]
  simp only [hr1, hr2, hr3]
  rw [if_pos (by omega)]

theorem parseExtGo_trunc (pre b : List Nat) (t L : Nat) (ht : t < 65536) (hL : L < 65536)
    (hb : b.length < L) :
    parseExtGo (pre ++ (encodeU16 t ++ (encodeU16 L ++ b))) pre.length = [] := by
  have hlen : (pre ++ (encodeU16 t ++ (encodeU16 L ++ b))).length
      = pre.length + 4 + b.length := by
    simp [encodeU16]
    omega
  have hr2 : readUInt16LE (pre ++ (encodeU16 t ++ (encodeU16 L ++ b)))
      (pre.length + 2) = L := by
    have h2 : pre ++ (encodeU16 t ++ (encodeU16 L ++ b))
        = (pre ++ [t % 256, t / 256]) ++ (L % 256) :: (L / 256) :: b := by
      simp [encodeU16]
    have hl2 : pre.length + 2 = (pre ++ [t % 256, t / 256]).length := by simp
    rw [h2, hl2, readU16_here]
    exact Nat.mod_add_div L 256
  conv_lhs => rw [parseExtGo]
  rw [dif_pos (by omega)]
  simp only [hr2]
  rw [if_neg (by omega)]

theorem parseExtGo_serialized (es : List (Nat × List Nat)) :
    ∀ (pre tail : List Nat),
      (∀ tp ∈ es, tp.1 < 65536 ∧ tp.2.length < 65536) →
      parseExtGo (pre ++ (serializeExts es ++ tail)) pre.length
        = es.map (fun tp => TokenExt.mk tp.1 tp.2)
            ++ parseExtGo (pre ++ (serializeExts es ++ tail))
                (pre.length + (serializeExts es).length) := by
  induction es with
  | nil =>
    intro pre tail hwf
    simp [serializeExts]
  | cons hd es ih =>
    intro pre tail hwf
    obtain ⟨t, p⟩ := hd
    have hhd := hwf (t, p) (List.mem_cons_self _ _)
    have hco : pre ++ (serializeExts ((t, p) :: es) ++ tail)
        = pre ++ (encodeU16 t ++ (encodeU16 p.length ++ (p ++ (serializeExts es ++ tail)))) := by
      simp [serializeExts]
    have hco2 : pre ++ (encodeU16 t ++ (encodeU16 p.length ++ (p ++ (serializeExts es ++ tail))))
        = (pre ++ encodeU16 t ++ encodeU16 p.length ++ p) ++ (serializeExts es ++ tail) := by
      simp [List.append_assoc]
    have hlpre : (pre ++ encodeU16 t ++ encodeU16 p.length ++ p).length
        = pre.length + 4 + p.length := by
      simp [encodeU16]
      try omega
    rw [hco]
    rw [parseExtGo_step pre p (serializeExts es ++ tail) t hhd.1 hhd.2]
    have hrec := ih (pre ++ encodeU16 t ++ encodeU16 p.length ++ p) tail
      (fun tp htp => hwf tp (List.mem_cons_of_mem _ htp))
    rw [hco2, ← hlpre]
    rw [hrec]
    have hslen : (serializeExts ((t, p) :: es)).length
        = 4 + p.length + (serializeExts es).length := by
      simp [serializeExts, encodeU16]
      try omega
    have hoff : pre.length + 4 + p.length + (serializeExts es).length
        = pre.length + (serializeExts ((t, p) :: es)).length := by
      rw [hslen]
      omega
    simp only [List.map_cons, List.cons_append, hlpre]
    rw [hoff]

/-! ### Helper lemma: the freshness gate on a successful re-quote -/

theorem gate_ok_eq (age oldOut newOut : Nat) (sc : Bool) (h : QUOTE_MAX_AGE_MS < age) :
    quoteFreshnessGate age oldOut (.ok newOut) sc
      = if deviationBp100 oldOut newOut < -1000 ∧ sc = false then
          ⟨true, oldOut, true, decide (200 < (deviationBp100 oldOut newOut).natAbs)⟩
        else ⟨false, newOut, true, decide (200 < (deviationBp100 oldOut newOut).natAbs)⟩ := by
  unfold quoteFreshnessGate
  rw [if_pos h]

/-- The fee the claimed closed form ceil(F * 1.5^(k-1)) assigns attempt k
(1-based), written over naturals as a ceiling division by 2^(k-1). -/
def specClaimFee (F k : Nat) : Nat :=
  (F * 3 ^ (k - 1) + (2 ^ (k - 1) - 1)) / 2 ^ (k - 1)

/-! ### The claims -/

/-- C1: the claim states that the honeypot round-trip classification is a
monotonic step function ending in an aggregate `critical` level for losses
above 50%.  The code disagrees: the warning emitted for a loss above 50% is
"Extreme round-trip loss: ..." while the critical bucket matches only the
upper-case marker "EXTREME" (and "HONEYPOT", "Permanent delegate",
"NON-TRANSFERABLE"), so a 70% round-trip loss on an otherwise clean token
aggregates to `medium`, strictly below the `high` produced by a 30% loss;
the unavailable-route case does aggregate to `critical` as claimed.  This
theorem evaluates the embedded code at those inputs
(amountLamports = 1000000000; sell outAmount 300000000 is a 70% loss,
700000000 a 30% loss). -/
theorem honeypot_loss_classification_bug :
    (runAntiScamChecks 1000000000 ⟨false, none, false, false, "1000"⟩
        (some (.ok (some 300000000)))).riskLevel = RiskLevel.medium
    ∧ (runAntiScamChecks 1000000000 ⟨false, none, false, false, "1000"⟩
        (some (.ok (some 700000000)))).riskLevel = RiskLevel.high
    ∧ (runAntiScamChecks 1000000000 ⟨false, none, false, false, "1000"⟩
        (some (.ok none))).riskLevel = RiskLevel.critical
    ∧ (runAntiScamChecks 1000000000 ⟨false, none, false, false, "1000"⟩
        (some (.ok (some 300000000)))).riskLevel.rank
      < (runAntiScamChecks 1000000000 ⟨false, none, false, false, "1000"⟩
        (some (.ok (some 700000000)))).riskLevel.rank := by
  refine ⟨by decide, by decide, by decide, by decide⟩

/-- C2: the aggregate risk level equals the highest severity among the
findings produced (the severity a finding carries being the bucket the
aggregator assigns its text), it is `low` exactly when the warning list is
empty, and a token whose only risk indicator is an active freeze authority
(with a clean 5%-loss sell simulation) assesses to `high` with exactly the
one freeze-authority warning. -/
theorem risk_level_equals_max_severity :
    (∀ ws : List String,
        computeRiskLevel ws =
          ws.foldr (fun w acc => maxLevel (warningSeverity w) acc) RiskLevel.low)
    ∧ (∀ ws : List String, computeRiskLevel ws = RiskLevel.low ↔ ws = [])
    ∧ (runAntiScamChecks 1000000000 ⟨false, none, true, false, "1000"⟩
        (some (.ok (some 950000000)))).riskLevel = RiskLevel.high
    ∧ (runAntiScamChecks 1000000000 ⟨false, none, true, false, "1000"⟩
        (some (.ok (some 950000000)))).warnings =
        [("Freeze authority active — your tokens can be frozen (blacklist risk)")] :=
  ⟨computeRiskLevel_eq_fold, computeRiskLevel_low_iff, by decide, by decide⟩

/-- C3 (amended): when confirmation resolves with a non-null on-chain error
whose parsed text contains none of the retryable markers ("timed out",
"BlockhashNotFound", "block height exceeded"), the executor submits exactly
once and the thrown error carries the transaction id and the raw on-chain
error object.  The restriction to marker-free parsed text is forced by the
counterexample: retryability is judged by substring search on the thrown
message, which embeds the parsed on-chain error. -/
theorem onchain_error_not_retried_amended :
    ∀ (o : Nat → AttemptOutcome) (est : Option Nat) (F : Fee) (t : String) (e : TxErr),
      o 0 = AttemptOutcome.onChainFail t e →
      isRetryableMsg (("Transaction failed on-chain: ") ++ parseTransactionError (some e))
        = false →
      (executeSwap o est F).fees.length = 1 ∧
        (executeSwap o est F).result =
          Except.error ⟨("Transaction failed on-chain: ") ++ parseTransactionError (some e),
            some t, some e⟩ := by
  intro o est F t e ho hnr
  have hs : sendSwapTransaction (o 0) =
      Except.error ⟨("Transaction failed on-chain: ") ++ parseTransactionError (some e),
        some t, some e⟩ := by
    rw [ho]
    rfl
  simp only [executeSwap, SWAP_MAX_RETRIES, executeSwapGo, hs, hnr, Bool.false_eq_true,
    if_false]
  refine ⟨rfl, ?_⟩
  trivial

/-- C3 witness: a confirmation error Custom 6001 (slippage exceeded) at
instruction 2 is submitted once and surfaced with its transaction id and raw
error. -/
theorem onchain_error_not_retried_witness :
    (executeSwap (fun _ => AttemptOutcome.onChainFail ("sig") (TxErr.instructionCustom 2 6001))
        none Fee.auto).fees.length = 1
    ∧ (executeSwap (fun _ => AttemptOutcome.onChainFail ("sig") (TxErr.instructionCustom 2 6001))
        none Fee.auto).result =
      Except.error ⟨("Transaction failed on-chain: ") ++
        parseTransactionError (some (TxErr.instructionCustom 2 6001)), some ("sig"),
        some (TxErr.instructionCustom 2 6001)⟩ :=
  onchain_error_not_retried_amended
    (fun _ => AttemptOutcome.onChainFail ("sig") (TxErr.instructionCustom 2 6001))
    none Fee.auto ("sig") (TxErr.instructionCustom 2 6001) rfl (by decide)

/-- C3 counterexample: a connection whose confirmation always resolves with
the non-null on-chain error string "BlockhashNotFound" is submitted three
times, not once — the parsed error text lands in the retryable-marker
substring check, refuting the claim as stated. -/
theorem onchain_error_retried_blockhash_counterexample :
    (executeSwap
        (fun _ => AttemptOutcome.onChainFail ("sig") (TxErr.str ("BlockhashNotFound")))
        none Fee.auto).fees.length ≠ 1 := by
  decide

/-- C4 (amended): the fee passed to attempt k (0-based) is the k-fold
iterate of the bump map applied to the starting fee: a positive numeric fee
F yields the nested ceilings ceil(1.5 * ... ceil(1.5 * F)), which differs
from the claimed closed form ceil(F * 1.5^k) (see the counterexample), and
an auto sentinel is bumped once to the caller-supplied network estimate or
the 100000-lamport default floor. -/
theorem fee_escalation_iterated_bump :
    (∀ (o : Nat → AttemptOutcome) (est : Option Nat) (F : Fee) (k : Nat),
        k < (executeSwap o est F).fees.length →
        (executeSwap o est F).fees.getD k Fee.auto = bumpIterFee est F k)
    ∧ (∀ (est : Option Nat) (n : Int), 0 < n →
        ∀ k, bumpIterFee est (Fee.num n) k = Fee.num (iterCeil15 n k))
    ∧ (∀ est : Option Nat, bumpIterFee est Fee.auto 1 = Fee.num (feeEstimateOrDefault est)) := by
  refine ⟨?_, ?_, ?_⟩
  · intro o est F k hk
    exact swapGo_fees_get SWAP_MAX_RETRIES o est F 0 k hk
  · intro est n hn k
    exact bumpIterFee_num est n hn k
  · intro est
    rfl

/-- C4 witness: starting from fee 100000 with two timed-out attempts, the
third attempt uses 225000 = ceil(1.5 * ceil(1.5 * 100000)). -/
theorem fee_escalation_iterated_bump_witness :
    (executeSwap (fun _ => AttemptOutcome.thrown ("Transaction confirmation timed out after 60s"))
        none (Fee.num 100000)).fees.getD 2 Fee.auto = Fee.num 225000 := by
  have h1 := fee_escalation_iterated_bump.1
    (fun _ => AttemptOutcome.thrown ("Transaction confirmation timed out after 60s"))
    none (Fee.num 100000) 2 (by decide)
  rw [h1]
  have h2 := fee_escalation_iterated_bump.2.1 none 100000 (by norm_num) 2
  rw [h2]
  decide

/-- C4 counterexample: with starting fee F = 3 and every attempt timing out,
attempt 3 uses fee 8 = ceil(1.5 * ceil(1.5 * 3)), while the claimed formula
ceil(F * 1.5^(k-1)) gives ceil(3 * 2.25) = 7. -/
theorem fee_escalation_closed_form_counterexample :
    (executeSwap (fun _ => AttemptOutcome.thrown ("Transaction confirmation timed out after 60s"))
        none (Fee.num 3)).fees.getD 2 Fee.auto = Fee.num 8
    ∧ specClaimFee 3 3 = 7 ∧ Fee.num 8 ≠ Fee.num 7 := by
  refine ⟨by decide, by decide, by decide⟩

/-- C5: every swap session is a bounded sequence of attempts.  For the
account-model venue: at most SWAP_MAX_RETRIES + 1 = 3 submissions, every
attempt before the last failed retryably (so the session stops at the first
confirmation or non-retryable failure), and when every attempt fails
retryably the session makes exactly 3 attempts and propagates the last
error.  For the EVM venue the same holds with cap buyRetries + 1 and
reverted-with-txHash as the non-retryable class. -/
theorem swap_session_bounded :
    (∀ (o : Nat → AttemptOutcome) (est : Option Nat) (F : Fee),
        (executeSwap o est F).fees.length ≤ SWAP_MAX_RETRIES + 1)
    ∧ (∀ (o : Nat → AttemptOutcome) (est : Option Nat) (F : Fee) (k : Nat),
        k + 1 < (executeSwap o est F).fees.length → retryableFailure (o k) = true)
    ∧ (∀ (o : Nat → AttemptOutcome) (est : Option Nat) (F : Fee),
        (∀ k, k ≤ SWAP_MAX_RETRIES → retryableFailure (o k) = true) →
        (executeSwap o est F).fees.length = SWAP_MAX_RETRIES + 1 ∧
          (executeSwap o est F).result = sendSwapTransaction (o SWAP_MAX_RETRIES))
    ∧ (∀ (o : Nat → BuyOutcome) (r : Nat), (executeBuy o r).2 ≤ r + 1)
    ∧ (∀ (o : Nat → BuyOutcome) (r k : Nat),
        k + 1 < (executeBuy o r).2 → retryableBuyFailure (o k) = true)
    ∧ (∀ (o : Nat → BuyOutcome) (r : Nat),
        (∀ k, k ≤ r → retryableBuyFailure (o k) = true) →
        (executeBuy o r).2 = r + 1 ∧ (executeBuy o r).1 = buyAttemptResult (o r)) := by
  refine ⟨?_, ?_, ?_, ?_, ?_, ?_⟩
  · intro o est F
    exact swapGo_len_le SWAP_MAX_RETRIES o est F 0
  · intro o est F k hk
    have := swapGo_nonfinal_retryable SWAP_MAX_RETRIES o est F 0 k hk
    rwa [Nat.zero_add] at this
  · intro o est F hall
    have := swapGo_all_retryable SWAP_MAX_RETRIES o est F 0
      (fun k hk => by rw [Nat.zero_add]; exact hall k hk)
    rwa [Nat.zero_add] at this
  · intro o r
    exact buyGo_count_le r o 0
  · intro o r k hk
    have := buyGo_nonfinal_retryable r o 0 k hk
    rwa [Nat.zero_add] at this
  · intro o r hall
    have := buyGo_all_retryable r o 0
      (fun k hk => by rw [Nat.zero_add]; exact hall k hk)
    rwa [Nat.zero_add] at this

/-- C5 witness: a session whose confirmation always times out makes exactly
3 attempts and propagates the timeout error of the last attempt. -/
theorem swap_session_bounded_witness :
    (executeSwap (fun _ => AttemptOutcome.thrown ("Transaction confirmation timed out after 60s"))
        none Fee.auto).fees.length = SWAP_MAX_RETRIES + 1
    ∧ (executeSwap (fun _ => AttemptOutcome.thrown ("Transaction confirmation timed out after 60s"))
        none Fee.auto).result =
      sendSwapTransaction
        (AttemptOutcome.thrown ("Transaction confirmation timed out after 60s")) :=
  swap_session_bounded.2.2.1
    (fun _ => AttemptOutcome.thrown ("Transaction confirmation timed out after 60s"))
    none Fee.auto (fun _ _ => rfl)

/-- C6: Token-2022 extension parsing is total (the embedding is a total
function, mirroring that every read in the source is guarded), and a buffer
consisting of a well-formed mint header, a list of well-formed TLV entries
and one truncated trailing entry — whose declared length L exceeds the bytes
actually present — parses to exactly the entries before the truncation
point. -/
theorem extension_parsing_truncation :
    ∀ (header : List Nat) (es : List (Nat × List Nat)) (t L : Nat) (b : List Nat),
      header.length = 82 →
      (∀ tp ∈ es, tp.1 < 65536 ∧ tp.2.length < 65536) →
      t < 65536 → L < 65536 → b.length < L →
      parseToken2022Extensions
          (header ++ 2 :: (serializeExts es ++ (encodeU16 t ++ (encodeU16 L ++ b))))
        = es.map (fun tp => TokenExt.mk tp.1 tp.2) := by
  intro header es t L b hh hwf ht hL hb
  have hdlen : (header ++ 2 :: (serializeExts es ++ (encodeU16 t ++ (encodeU16 L ++ b)))).length
      = 87 + (serializeExts es).length + b.length := by
    simp [encodeU16, hh]
    try omega
  unfold parseToken2022Extensions
  rw [if_neg (by omega)]
  have hg : (header ++ 2 :: (serializeExts es ++ (encodeU16 t ++ (encodeU16 L ++ b)))).getD 82 0
      = 2 := by
    rw [List.getD_append_right]
    · simp [hh]
    · omega
  rw [if_neg (fun hne => hne hg)]
  have hsplit : header ++ 2 :: (serializeExts es ++ (encodeU16 t ++ (encodeU16 L ++ b)))
      = (header ++ [2]) ++ (serializeExts es ++ (encodeU16 t ++ (encodeU16 L ++ b))) := by
    simp
  have hl83 : (83 : Nat) = (header ++ [2]).length := by simp [hh]
  rw [hsplit, hl83]
  rw [parseExtGo_serialized es (header ++ [2]) (encodeU16 t ++ (encodeU16 L ++ b)) hwf]
  have htr : parseExtGo
      ((header ++ [2]) ++ (serializeExts es ++ (encodeU16 t ++ (encodeU16 L ++ b))))
      ((header ++ [2]).length + (serializeExts es).length) = [] := by
    have h4 : (header ++ [2]) ++ (serializeExts es ++ (encodeU16 t ++ (encodeU16 L ++ b)))
        = (header ++ [2] ++ serializeExts es) ++ (encodeU16 t ++ (encodeU16 L ++ b)) := by
      simp [List.append_assoc]
    have hl4 : (header ++ [2]).length + (serializeExts es).length
        = (header ++ [2] ++ serializeExts es).length := by
      simp
      try omega
    rw [h4, hl4]
    exact parseExtGo_trunc (header ++ [2] ++ serializeExts es) b t L ht hL hb
  rw [htr, List.append_nil]

/-- C6 witness: a buffer with one complete type-1 entry of payload [5, 6]
followed by a type-14 entry declaring 9 payload bytes but carrying only 2
parses to exactly the complete entry. -/
theorem extension_parsing_truncation_witness :
    parseToken2022Extensions
        ((List.replicate 82 0) ++ 2 ::
          (serializeExts [(1, [5, 6])] ++ (encodeU16 14 ++ (encodeU16 9 ++ [1, 2]))))
      = [TokenExt.mk 1 [5, 6]] :=
  extension_parsing_truncation (List.replicate 82 0) [(1, [5, 6])] 14 9 [1, 2] (by decide)
    (by decide) (by decide) (by decide) (by decide)

/-- C7: the minimum output is computed by exact integer arithmetic.  For a
slippage percentage that denotes bps/100 basis points, applySlippage equals
the integer formula expectedOut * (10000 - bps) / 10000 (truncating
division), and expectedOutput 1000000 at 5.5% slippage (550 bps) yields
exactly 945000; as a pure integer function it is reproducible by
construction. -/
theorem applySlippage_exact_integer :
    (∀ (e : ℤ) (bps : ℕ),
        applySlippage e ((bps : ℚ) / 100) = Int.tdiv (e * (10000 - (bps : ℤ))) 10000)
    ∧ applySlippage 1000000 (550 / 100 : ℚ) = 945000 := by
  constructor
  · intro e bps
    unfold applySlippage jsMathRound
    have hq : ((bps : ℚ) / 100) * 100 = (bps : ℚ) :=
      div_mul_cancel₀ (bps : ℚ) (by norm_num)
    rw [hq]
    have hf : ⌊(bps : ℚ) + 1 / 2⌋ = (bps : ℤ) := by
      rw [Int.floor_eq_iff]
      constructor
      · push_cast
        linarith
      · push_cast
        linarith
    rw [hf]
  · norm_num [applySlippage, jsMathRound]
    decide

/-- C8: a quote older than 10 seconds is re-quoted before the swap
transaction is built; on a successful re-quote a deviation worse than -10%
without the --yes override aborts the run before any swap attempt (the
stale quote is not used), a deviation within the -10% bound never aborts and
merely sets the warn flag above the 2% threshold, and a quote at most 10
seconds old is used as is with no re-quote. -/
theorem quote_freshness_gate_spec :
    (∀ (age oldOut : Nat) (refresh : Except String Nat) (sc : Bool),
        QUOTE_MAX_AGE_MS < age →
        (quoteFreshnessGate age oldOut refresh sc).requoted = true)
    ∧ (∀ (age oldOut newOut : Nat),
        QUOTE_MAX_AGE_MS < age → deviationBp100 oldOut newOut < -1000 →
        (quoteFreshnessGate age oldOut (.ok newOut) false).aborted = true ∧
          (quoteFreshnessGate age oldOut (.ok newOut) false).usedOut = oldOut)
    ∧ (∀ (age oldOut newOut : Nat) (sc : Bool),
        QUOTE_MAX_AGE_MS < age → -1000 ≤ deviationBp100 oldOut newOut →
        (quoteFreshnessGate age oldOut (.ok newOut) sc).aborted = false ∧
          (quoteFreshnessGate age oldOut (.ok newOut) sc).warned
            = decide (200 < (deviationBp100 oldOut newOut).natAbs))
    ∧ (∀ (age oldOut : Nat) (refresh : Except String Nat) (sc : Bool),
        age ≤ QUOTE_MAX_AGE_MS →
        quoteFreshnessGate age oldOut refresh sc = ⟨false, oldOut, false, false⟩) := by
  refine ⟨?_, ?_, ?_, ?_⟩
  · intro age oldOut refresh sc h
    cases refresh with
    | error e =>
      unfold quoteFreshnessGate
      rw [if_pos h]
    | ok newOut =>
      rw [gate_ok_eq age oldOut newOut sc h]
      by_cases hd : deviationBp100 oldOut newOut < -1000 ∧ sc = false
      · rw [if_pos hd]
      · rw [if_neg hd]
  · intro age oldOut newOut h hdev
    rw [gate_ok_eq age oldOut newOut false h, if_pos ⟨hdev, rfl⟩]
    exact ⟨rfl, rfl⟩
  · intro age oldOut newOut sc h hdev
    rw [gate_ok_eq age oldOut newOut sc h,
      if_neg (fun hand => absurd hand.1 (not_lt.mpr hdev))]
    exact ⟨rfl, rfl⟩
  · intro age oldOut refresh sc h
    unfold quoteFreshnessGate
    rw [if_neg (not_lt.mpr h)]

/-- C8 witness: a 15-second-old quote whose re-quote drops the expected
output from 1000000 to 800000 (a -20% deviation) aborts without the
override. -/
theorem quote_freshness_gate_spec_witness :
    (quoteFreshnessGate 15000 1000000 (.ok 800000) false).aborted = true ∧
      (quoteFreshnessGate 15000 1000000 (.ok 800000) false).usedOut = 1000000 :=
  quote_freshness_gate_spec.2.1 15000 1000000 800000 (by decide) (by decide)

/-- C9: the risk assessment never throws for an expected failure: for every
token and every failing sell-simulation network call, the embedded
runAntiScamChecks still returns an assessment whose honeypot detail records
canSell = false with the failure reason, whose warning list is exactly the
warnings of all other checks followed by the critical HONEYPOT finding, and
whose aggregate level is critical. -/
theorem risk_engine_swallows_network_failure :
    ∀ (amt : Nat) (info : TokenInfo) (e : String),
      (runAntiScamChecks amt info (some (.error e))).riskLevel = RiskLevel.critical
      ∧ (runAntiScamChecks amt info (some (.error e))).warnings =
          (runAntiScamChecks amt info none).warnings ++
            [("HONEYPOT RISK: ") ++ (("Sell simulation failed: ") ++ e)]
      ∧ (runAntiScamChecks amt info (some (.error e))).honeypot =
          some ⟨false, some (("Sell simulation failed: ") ++ e), none, none⟩ := by
  intro amt info e
  have hw : jsIncludes (("HONEYPOT RISK: ") ++ (("Sell simulation failed: ") ++ e))
      ("HONEYPOT") = true :=
    jsIncludes_append_left _ _ _ (by decide)
  have hcm : critMatch (("HONEYPOT RISK: ") ++ (("Sell simulation failed: ") ++ e)) = true := by
    unfold critMatch
    rw [hw]
    simp
  refine ⟨?_, rfl, rfl⟩
  apply (computeRiskLevel_critical_iff _).mpr
  show ((extensionWarnings info ++ authorityWarnings info) ++
      [("HONEYPOT RISK: ") ++ (("Sell simulation failed: ") ++ e)]).any critMatch = true
  simp [List.any_append, List.any_cons, hcm]

/-- C10: when the pre-flight re-quote of a stale quote itself fails, the
error is swallowed: the gate neither aborts nor surfaces an error and the
swap proceeds with the original quote (the warn flag untouched). -/
theorem requote_failure_swallowed :
    ∀ (age oldOut : Nat) (e : String) (sc : Bool),
      QUOTE_MAX_AGE_MS < age →
      quoteFreshnessGate age oldOut (.error e) sc = ⟨false, oldOut, true, false⟩ := by
  intro age oldOut e sc h
  unfold quoteFreshnessGate
  rw [if_pos h]

/-- C10 witness: a 15-second-old quote whose re-quote fails with a network
error proceeds on the original expected output without aborting. -/
theorem requote_failure_swallowed_witness :
    quoteFreshnessGate 15000 1000000 (.error ("ECONNRESET")) false
      = ⟨false, 1000000, true, false⟩ :=
  requote_failure_swallowed 15000 1000000 ("ECONNRESET") false (by decide)
